import Mathlib

/-!
Verification development for the SOM (Self-Organizing Feature Map) engine of
pyclustering (`ccore/ccore/som.h`).

The repository ships only the header `som.h`: the class declaration, the enum
types and the inline default constructor of `som_parameters`.  The bodies of
the member functions (`train`, `simulate`, `competition`, `adaptation`,
`create_connections`, `create_initial_weights`,
`calculate_maximal_adaptation`, constructor) are not part of the sources, so
they are modelled here from the specification (`spec.md`), faithful to its
words; each such definition carries a doc comment saying so.  Scalars are
modelled as rationals (`ℚ`): decimal literals of the source denote the
rational they write, and the squared Euclidean distance is used for winner
selection, which selects the same winner as the Euclidean distance because
squaring is monotone on non-negative reals.
-/

/-- Connection (lattice adjacency) schemes, from `som.h` lines 31-36. -/
inductive som_conn_type where
  | SOM_GRID_FOUR : som_conn_type
  | SOM_GRID_EIGHT : som_conn_type
  | SOM_HONEYCOMB : som_conn_type
  | SOM_FUNC_NEIGHBOR : som_conn_type
deriving DecidableEq, Repr

/-- Weight initialization strategies, from `som.h` lines 38-43. -/
inductive som_init_type where
  | SOM_RANDOM : som_init_type
  | SOM_RANDOM_CENTROID : som_init_type
  | SOM_RANDOM_SURFACE : som_init_type
  | SOM_UNIFORM_GRID : som_init_type
deriving DecidableEq, Repr

/-- Configuration structure, from `som.h` lines 45-56. -/
structure som_parameters where
  init_type : som_init_type
  init_radius : ℚ
  init_learn_rate : ℚ
  adaptation_threshold : ℚ
deriving DecidableEq, Repr

/-- The C++ default constructor of `som_parameters` (`som.h` lines 51-55):
`init_type(SOM_UNIFORM_GRID), init_radius(1.0), init_learn_rate(0.1),
adaptation_threshold(0.001)`. -/
def som_parameters.defaults : som_parameters :=
  { init_type := som_init_type.SOM_UNIFORM_GRID
    init_radius := 1
    init_learn_rate := 1/10
    adaptation_threshold := 1/1000 }

/-- Error taxonomy of the specification (§7). -/
inductive som_error where
  | InvalidInputError : som_error
  | ConfigurationError : som_error
deriving DecidableEq, Repr

/-- Absolute difference on natural numbers, written with truncated
subtraction so that `natDist a b = |a - b|`. -/
def natDist (a b : Nat) : Nat := (a - b) + (b - a)

/-- Modelled from the spec: Grid-4 adjacency between the lattice coordinates
`(r, c)` of a neuron and the coordinates `(a, b)` of a candidate neighbor —
"neighbor set = \x7bup, down, left, right\x7d within grid bounds" (§3).  Two
cells are adjacent when they agree in one coordinate and differ by exactly
one in the other. -/
def grid4_coord_adj (r c a b : Nat) : Bool :=
  (a == r && natDist b c == 1) || (b == c && natDist a r == 1)

/-- Modelled from the spec: Grid-8 adjacency — "Grid-4 plus the four
diagonals" (§3): both coordinates within distance one, excluding the cell
itself. -/
def grid8_coord_adj (r c a b : Nat) : Bool :=
  decide (natDist a r ≤ 1) && decide (natDist b c ≤ 1) && !(a == r && b == c)

/-- Modelled from the spec: honeycomb adjacency — "hexagonal adjacency —
neighbor set depends on row parity (even/odd rows shift their diagonal
neighbors), producing 6 max neighbors for interior neurons" (§3).  A cell in
an even row `r` is linked to columns `c-1` and `c` of rows `r±1`; a cell in
an odd row to columns `c` and `c+1`; plus left/right in the same row. -/
def honeycomb_coord_adj (r c a b : Nat) : Bool :=
  (a == r && natDist b c == 1) ||
  (natDist a r == 1 &&
    (if r % 2 == 0 then (b == c || b + 1 == c) else (b == c || b == c + 1)))

/-- Modelled from the spec: the precomputed adjacency test between neuron
indices `i` and `j` of a row-major lattice with `cols` columns.  The
Function-neighbor scheme precomputes no adjacency (§3: "no precomputed
adjacency"), so it relates nothing. -/
def som_adjacent (t : som_conn_type) (cols i j : Nat) : Bool :=
  match t with
  | som_conn_type.SOM_GRID_FOUR =>
      grid4_coord_adj (i / cols) (i % cols) (j / cols) (j % cols)
  | som_conn_type.SOM_GRID_EIGHT =>
      grid8_coord_adj (i / cols) (i % cols) (j / cols) (j % cols)
  | som_conn_type.SOM_HONEYCOMB =>
      honeycomb_coord_adj (i / cols) (i % cols) (j / cols) (j % cols)
  | som_conn_type.SOM_FUNC_NEIGHBOR => false

/-- Modelled from the spec: the neighbor list of neuron `i` (`som.h` line 190
declares `create_connections`; its body is absent from the sources).  The
lattice is `rows × cols`, row-major, without wraparound (§4.1). -/
def neighbors_of (t : som_conn_type) (rows cols i : Nat) : List Nat :=
  (List.range (rows * cols)).filter (fun j => som_adjacent t cols i j)

/-- Modelled from the spec: `create_connections` (`som.h` line 190) builds
the per-neuron neighbor lists for the whole lattice. -/
def create_connections (t : som_conn_type) (rows cols : Nat) : List (List Nat) :=
  (List.range (rows * cols)).map (neighbors_of t rows cols)

/-- Squared Euclidean distance between two feature vectors, componentwise. -/
def euclidean_distance_sq (a b : List ℚ) : ℚ :=
  (List.zipWith (fun x y => (x - y) ^ 2) a b).sum

/-- Index of the first minimum of a list of rationals (`0` on the empty
list).  Ties select the lowest index. -/
def argminQ : List ℚ → Nat
  | [] => 0
  | [_] => 0
  | d :: e :: ds =>
      if d ≤ (e :: ds).getD (argminQ (e :: ds)) 0 then 0
      else argminQ (e :: ds) + 1

/-- Modelled from the spec: `competition` (`som.h` line 213) — "the neuron
whose weight vector has minimum Euclidean distance to the pattern; ties
broken by lowest neuron index" (§4.3).  The squared distance is minimised,
which selects the same winner. -/
def competition (weights : List (List ℚ)) (pattern : List ℚ) : Nat :=
  argminQ (weights.map (fun w => euclidean_distance_sq pattern w))

/-- State of a `som` engine, mirroring the private fields of class `som`
(`som.h` lines 63-91). -/
structure som where
  rows : Nat
  cols : Nat
  size : Nat
  conn_type : som_conn_type
  weights : List (List ℚ)
  previous_weights : List (List ℚ)
  awards : List Nat
  data : List (List ℚ)
  capture_objects : List (List Nat)
  neighbors : List (List Nat)
  epouchs : Nat
  params : som_parameters
  local_radius : ℚ
  learn_rate : ℚ
deriving DecidableEq, Repr

/-- Squared grid distance between the lattice locations of neurons `i` and
`j` (row-major coordinates). -/
def som.gridDistSq (s : som) (i j : Nat) : Nat :=
  natDist (i / s.cols) (j / s.cols) ^ 2 + natDist (i % s.cols) (j % s.cols) ^ 2

/-- Modelled from the spec: neighborhood influence — "1.0 for the winner
itself and decays with grid distance for others ... any monotonically
decreasing function of distance normalized to radius is acceptable as long
as influence is 1 at distance 0 and 0 at/beyond the radius" (§4.3).  The
design choice here is `1 - d²/radius²`, clamped to `0` at and beyond the
radius; it is expressed on squared quantities to stay within `ℚ`. -/
def influence_of (dSq rSq : ℚ) : ℚ :=
  if dSq = 0 then 1
  else if 0 < rSq ∧ dSq ≤ rSq then 1 - dSq / rSq
  else 0

/-- Modelled from the spec: the influence of the winner on neuron `i`.
Fixed-adjacency schemes update the winner and the neurons of its neighbor
list within the current radius; the Function-neighbor scheme weighs every
neuron by the continuous neighbor-weight function (§4.3). -/
def som.neighbor_influence (s : som) (winner i : Nat) : ℚ :=
  let dSq : ℚ := (s.gridDistSq winner i : Nat)
  match s.conn_type with
  | som_conn_type.SOM_FUNC_NEIGHBOR => influence_of dSq (s.local_radius ^ 2)
  | _ =>
      if i = winner then 1
      else if (s.neighbors.getD winner []).contains i ∧ dSq ≤ s.local_radius ^ 2 then
        influence_of dSq (s.local_radius ^ 2)
      else 0

/-- Modelled from the spec: `adaptation` (`som.h` line 223) — "update
`weight += learn_rate * influence * (pattern - weight)`" for every neuron in
the winner's neighborhood (§4.3). -/
def som.adaptation (s : som) (winner : Nat) (pattern : List ℚ) : som :=
  { s with weights :=
      (List.range s.weights.length).map (fun i =>
        let inf := s.neighbor_influence winner i
        List.zipWith (fun x p => x + s.learn_rate * inf * (p - x))
          (s.weights.getD i []) pattern) }

/-- Increment the entry at position `i` of a list of counters; out-of-range
positions leave the list unchanged. -/
def incrAt : List Nat → Nat → List Nat
  | [], _ => []
  | x :: xs, 0 => (x + 1) :: xs
  | x :: xs, n + 1 => x :: incrAt xs n

/-- Append value `v` to the list stored at position `i`; out-of-range
positions leave the lists unchanged. -/
def appendAt : List (List Nat) → Nat → Nat → List (List Nat)
  | [], _, _ => []
  | x :: xs, 0, v => (x ++ [v]) :: xs
  | x :: xs, n + 1, v => x :: appendAt xs n v

/-- Modelled from the spec: processing of one input pattern during an epoch —
competition finds the winner, adaptation updates the weights, the winner's
award counter is incremented and the pattern's index is recorded in the
winner's captured-objects list (§4.3, §3). -/
def som.process_pattern (s : som) (idx : Nat) : som :=
  let pattern := s.data.getD idx []
  let winner := competition s.weights pattern
  let s2 := s.adaptation winner pattern
  { s2 with
      awards := incrAt s2.awards winner
      capture_objects := appendAt s2.capture_objects winner idx }

/-- Modelled from the spec: one training epoch with index `epoch`.  The
previous-weight snapshot is "captured at the start of each epoch, before any
adaptation in that epoch"; learning rate and radius are "recomputed each
epoch as monotonically non-increasing functions of the epoch index relative
to total epoch budget" (design choice: linear decay from the configured
initial values toward zero); awards and captured objects are "reset and
recomputed during/after each training pass" (§3, §4.3); then every input
pattern is processed in data-set order. -/
def som.run_epoch (s : som) (epoch : Nat) : som :=
  let s1 := { s with
      previous_weights := s.weights
      learn_rate := s.params.init_learn_rate * ((s.epouchs - epoch : Nat) : ℚ) / (s.epouchs : ℚ)
      local_radius := s.params.init_radius * ((s.epouchs - epoch : Nat) : ℚ) / (s.epouchs : ℚ)
      awards := List.replicate s.size 0
      capture_objects := List.replicate s.size [] }
  (List.range s.data.length).foldl som.process_pattern s1

/-- Modelled from the spec: `calculate_maximal_adaptation` (`som.h` line
233) — "the maximum, over all neurons and all weight dimensions, of
`|current_weight - previous_weight|`" (§4.3). -/
def som.calculate_maximal_adaptation (s : som) : ℚ :=
  (List.zipWith
    (fun w pw => (List.zipWith (fun x y => |x - y|) w pw).foldl max 0)
    s.weights s.previous_weights).foldl max 0

/-- Modelled from the spec: the training loop.  `rem` epochs remain of the
budget and `executed` were already executed.  After each epoch, when
`autostop` is set and the maximal adaptation falls below the configured
threshold, "the engine stops early and reports the epoch count consumed so
far" (§4.3). -/
def som.train_loop (autostop : Bool) : Nat → Nat → som → Nat × som
  | 0, executed, s => (executed, s)
  | rem + 1, executed, s =>
      let s2 := s.run_epoch executed
      if autostop &&
          decide (s2.calculate_maximal_adaptation < s2.params.adaptation_threshold) then
        (executed + 1, s2)
      else
        som.train_loop autostop rem (executed + 1) s2

/-- Modelled from the spec: `train` (`som.h` line 125) — "training stops
when either the configured epoch budget is exhausted or (if `autostop`) the
convergence threshold is met. `train` returns the number of epochs actually
executed" (§4.3). -/
def som.train (s : som) (autostop : Bool) : Nat × som :=
  som.train_loop autostop s.epouchs 0 s

/-- Modelled from the spec: `simulate` (`som.h` line 137, declared `const`)
— "runs the same winner-selection logic as competition (nearest weight
vector, ties by lowest index) without mutating any weights or awards"
(§4.4).  The pair returns the winner index together with the (unchanged)
engine state, mirroring the C++ call on a mutable object. -/
def som.simulate (s : som) (pattern : List ℚ) : Nat × som :=
  (competition s.weights pattern, s)

/-- Componentwise minimum of the data set in dimension `d`. -/
def dim_min (data : List (List ℚ)) (d : Nat) : ℚ :=
  (data.map (fun row => row.getD d 0)).foldl min ((data.headD []).getD d 0)

/-- Componentwise maximum of the data set in dimension `d`. -/
def dim_max (data : List (List ℚ)) (d : Nat) : ℚ :=
  (data.map (fun row => row.getD d 0)).foldl max ((data.headD []).getD d 0)

/-- Componentwise mean of the data set in dimension `d`. -/
def dim_mean (data : List (List ℚ)) (d : Nat) : ℚ :=
  (data.map (fun row => row.getD d 0)).sum / (data.length : ℚ)

/-- Modelled from the spec: `create_initial_weights` (`som.h` line 201; body
absent from the sources).  `SOM_UNIFORM_GRID` distributes weights across the
data's bounding box in proportion to the lattice position (row and column
normalized to `[0,1]`, §4.2): dimension 0 follows the column fraction,
dimension 1 the row fraction, higher dimensions sit at the box midpoint.
The three random strategies draw from distributions (§4.2); randomness has
no source in the deterministic spec, so each is modelled by a fixed
representative of its specified distribution: the bounding-box midpoint for
`SOM_RANDOM` and `SOM_RANDOM_SURFACE`, the centroid for
`SOM_RANDOM_CENTROID`. -/
def create_initial_weights (t : som_init_type) (data : List (List ℚ))
    (rows cols : Nat) : List (List ℚ) :=
  let dim := (data.headD []).length
  (List.range (rows * cols)).map (fun i =>
    let r := i / cols
    let c := i % cols
    (List.range dim).map (fun d =>
      match t with
      | som_init_type.SOM_UNIFORM_GRID =>
          let frac : ℚ :=
            if d = 0 then (if cols ≤ 1 then 1/2 else (c : ℚ) / ((cols : ℚ) - 1))
            else if d = 1 then (if rows ≤ 1 then 1/2 else (r : ℚ) / ((rows : ℚ) - 1))
            else 1/2
          dim_min data d + (dim_max data d - dim_min data d) * frac
      | som_init_type.SOM_RANDOM_CENTROID => dim_mean data d
      | _ => (dim_min data d + dim_max data d) / 2))

/-- Modelled from the spec: the constructor (`som.h` line 106; body absent
from the sources).  "Failure: fails with `InvalidInputError` if
`epochs == 0` or the data set is empty at construction time" (§4.3), and the
concrete scenario of §8 requires the failure before any lattice or weight
allocation; zero lattice dimensions fail with `ConfigurationError` (§4.1).
On success the lattice connections and the initial weights are built and the
dynamic parameters start from the configured initial values. -/
def som.create (input_data : List (List ℚ)) (num_rows num_cols num_epochs : Nat)
    (type_conn : som_conn_type) (parameters : som_parameters) : Except som_error som :=
  if input_data = [] ∨ num_epochs = 0 then
    Except.error som_error.InvalidInputError
  else if num_rows = 0 ∨ num_cols = 0 then
    Except.error som_error.ConfigurationError
  else
    Except.ok
      { rows := num_rows
        cols := num_cols
        size := num_rows * num_cols
        conn_type := type_conn
        weights := create_initial_weights parameters.init_type input_data num_rows num_cols
        previous_weights := create_initial_weights parameters.init_type input_data num_rows num_cols
        awards := List.replicate (num_rows * num_cols) 0
        data := input_data
        capture_objects := List.replicate (num_rows * num_cols) []
        neighbors := create_connections type_conn num_rows num_cols
        epouchs := num_epochs
        params := parameters
        local_radius := parameters.init_radius
        learn_rate := parameters.init_learn_rate }

/-- A small concrete engine used to instantiate the theorems: the 2×2 Grid-4
lattice over the four corners of the unit square (§8's concrete scenario),
with a budget of 2 epochs and the default parameters. -/
def sample_som : som :=
  { rows := 2
    cols := 2
    size := 4
    conn_type := som_conn_type.SOM_GRID_FOUR
    weights := [[0, 0], [0, 1], [1, 0], [1, 1]]
    previous_weights := [[0, 0], [0, 1], [1, 0], [1, 1]]
    awards := [0, 0, 0, 0]
    data := [[0, 0], [0, 1], [1, 0], [1, 1]]
    capture_objects := [[], [], [], []]
    neighbors := create_connections som_conn_type.SOM_GRID_FOUR 2 2
    epouchs := 2
    params := som_parameters.defaults
    local_radius := 1
    learn_rate := 1/10 }

/-- Squared distance from `pattern` to the weight vector of neuron `i`. -/
def neuron_distance_sq (weights : List (List ℚ)) (pattern : List ℚ) (i : Nat) : ℚ :=
  euclidean_distance_sq pattern (weights.getD i [])

/-- Classification of lattice positions: a corner neuron sits on both an
extreme row and an extreme column. -/
def is_corner (rows cols r c : Nat) : Bool :=
  (r == 0 || r == rows - 1) && (c == 0 || c == cols - 1)

/-- Classification of lattice positions: an interior neuron is strictly
inside the lattice in both coordinates. -/
def is_interior (rows cols r c : Nat) : Bool :=
  decide (0 < r) && decide (r + 1 < rows) && decide (0 < c) && decide (c + 1 < cols)

/-- Classification of lattice positions: an edge neuron is on the boundary
but is not a corner. -/
def is_edge (rows cols r c : Nat) : Bool :=
  (r == 0 || r == rows - 1 || c == 0 || c == cols - 1) &&
    !(is_corner rows cols r c)

/-! ### Lemmas about winner selection -/

theorem argminQ_lt_length : ∀ (l : List ℚ), l ≠ [] → argminQ l < l.length := by
  intro l
  induction l with
  | nil => intro h; exact absurd rfl h
  | cons d tail ih =>
    intro _
    cases tail with
    | nil => simp [argminQ]
    | cons e ds =>
      by_cases hd : d ≤ (e :: ds).getD (argminQ (e :: ds)) 0
      · rw [argminQ, if_pos hd]; simp
      · rw [argminQ, if_neg hd]
        have h2 := ih (by simp)
        simp only [List.length_cons] at h2 ⊢
        omega

theorem argminQ_le : ∀ (l : List ℚ) (i : Nat), i < l.length →
    l.getD (argminQ l) 0 ≤ l.getD i 0 := by
  intro l
  induction l with
  | nil => intro i hi; simp at hi
  | cons d tail ih =>
    intro i hi
    cases tail with
    | nil =>
      cases i with
      | zero => simp [argminQ]
      | succ k => simp at hi
    | cons e ds =>
      by_cases hd : d ≤ (e :: ds).getD (argminQ (e :: ds)) 0
      · simp only [argminQ, if_pos hd, List.getD_cons_zero]
        cases i with
        | zero => simp
        | succ k =>
          simp only [List.getD_cons_succ]
          exact le_trans hd (ih k (by simpa using hi))
      · simp only [argminQ, if_neg hd, List.getD_cons_succ]
        cases i with
        | zero => exact le_of_not_le hd
        | succ k => exact ih k (by simpa using hi)

theorem argminQ_lt_of_lt : ∀ (l : List ℚ) (i : Nat), i < argminQ l →
    l.getD (argminQ l) 0 < l.getD i 0 := by
  intro l
  induction l with
  | nil => intro i hi; simp [argminQ] at hi
  | cons d tail ih =>
    intro i hi
    cases tail with
    | nil => simp [argminQ] at hi
    | cons e ds =>
      by_cases hd : d ≤ (e :: ds).getD (argminQ (e :: ds)) 0
      · rw [argminQ, if_pos hd] at hi; omega
      · rw [argminQ, if_neg hd] at hi
        rw [argminQ, if_neg hd]
        cases i with
        | zero => simpa using lt_of_not_le hd
        | succ k =>
          simp only [List.getD_cons_succ]
          exact ih k (by omega)

theorem getD_map_dist : ∀ (w : List (List ℚ)) (p : List ℚ) (i : Nat), i < w.length →
    (w.map (fun v => euclidean_distance_sq p v)).getD i 0 = neuron_distance_sq w p i := by
  intro w p
  induction w with
  | nil => intro i hi; simp at hi
  | cons a tl ih =>
    intro i hi
    cases i with
    | zero => simp [neuron_distance_sq]
    | succ k =>
      have h2 := ih k (by simpa using hi)
      simpa [neuron_distance_sq] using h2

theorem competition_lt_length (w : List (List ℚ)) (p : List ℚ) (h : w ≠ []) :
    competition w p < w.length := by
  have hmap : (w.map (fun v => euclidean_distance_sq p v)) ≠ [] := by
    simpa using h
  have h2 := argminQ_lt_length _ hmap
  simpa [competition] using h2

theorem competition_min (w : List (List ℚ)) (p : List ℚ) (h : w ≠ []) :
    ∀ i, i < w.length →
      neuron_distance_sq w p (competition w p) ≤ neuron_distance_sq w p i := by
  intro i hi
  have hm := competition_lt_length w p h
  rw [← getD_map_dist w p i hi, ← getD_map_dist w p (competition w p) hm]
  exact argminQ_le (w.map (fun v => euclidean_distance_sq p v)) i (by simpa using hi)

theorem competition_least (w : List (List ℚ)) (p : List ℚ) (h : w ≠ []) :
    ∀ i, i < competition w p →
      neuron_distance_sq w p (competition w p) < neuron_distance_sq w p i := by
  intro i hi
  have hm := competition_lt_length w p h
  have hiw : i < w.length := lt_trans hi hm
  rw [← getD_map_dist w p i hiw, ← getD_map_dist w p (competition w p) hm]
  exact argminQ_lt_of_lt (w.map (fun v => euclidean_distance_sq p v)) i
    (by simpa [competition] using hi)

/-! ### Lemmas about the training loop -/

theorem process_pattern_params (s : som) (idx : Nat) :
    (s.process_pattern idx).params = s.params := rfl

theorem process_pattern_size (s : som) (idx : Nat) :
    (s.process_pattern idx).size = s.size := rfl

theorem process_pattern_data (s : som) (idx : Nat) :
    (s.process_pattern idx).data = s.data := rfl

theorem process_pattern_epouchs (s : som) (idx : Nat) :
    (s.process_pattern idx).epouchs = s.epouchs := rfl

theorem process_pattern_weights_length (s : som) (idx : Nat) :
    (s.process_pattern idx).weights.length = s.weights.length := by
  simp [som.process_pattern, som.adaptation]

theorem process_pattern_awards (s : som) (idx : Nat) :
    (s.process_pattern idx).awards =
      incrAt s.awards (competition s.weights (s.data.getD idx [])) := rfl

theorem incrAt_length : ∀ (l : List Nat) (i : Nat), (incrAt l i).length = l.length := by
  intro l
  induction l with
  | nil => intro i; rfl
  | cons x xs ih =>
    intro i
    cases i with
    | zero => rfl
    | succ k => simp [incrAt, ih k]

theorem incrAt_sum : ∀ (l : List Nat) (i : Nat), i < l.length →
    (incrAt l i).sum = l.sum + 1 := by
  intro l
  induction l with
  | nil => intro i hi; simp at hi
  | cons x xs ih =>
    intro i hi
    cases i with
    | zero => simp [incrAt]; omega
    | succ k =>
      have h2 := ih k (by simpa using hi)
      simp [incrAt, h2]
      omega

theorem foldl_process_params : ∀ (l : List Nat) (s : som),
    (l.foldl som.process_pattern s).params = s.params := by
  intro l
  induction l with
  | nil => intro s; rfl
  | cons a tl ih =>
    intro s
    calc (tl.foldl som.process_pattern (s.process_pattern a)).params
        = (s.process_pattern a).params := ih (s.process_pattern a)
      _ = s.params := rfl

theorem run_epoch_params (s : som) (e : Nat) :
    (s.run_epoch e).params = s.params := by
  simp only [som.run_epoch]
  rw [foldl_process_params]

theorem foldl_process_state : ∀ (l : List Nat) (s : som),
    s.weights.length = s.size → s.awards.length = s.size → 0 < s.size →
    (l.foldl som.process_pattern s).awards.sum = s.awards.sum + l.length ∧
    (l.foldl som.process_pattern s).awards.length = s.size ∧
    (l.foldl som.process_pattern s).weights.length = s.size ∧
    (l.foldl som.process_pattern s).size = s.size ∧
    (l.foldl som.process_pattern s).data = s.data ∧
    (l.foldl som.process_pattern s).epouchs = s.epouchs := by
  intro l
  induction l with
  | nil =>
    intro s hw ha hpos
    exact ⟨rfl, ha, hw, rfl, rfl, rfl⟩
  | cons a tl ih =>
    intro s hw ha hpos
    have hw_ne : s.weights ≠ [] := by
      intro hnil
      rw [hnil] at hw
      simp at hw
      omega
    have hwin : competition s.weights (s.data.getD a []) < s.size := by
      have h2 := competition_lt_length s.weights (s.data.getD a []) hw_ne
      omega
    have hs' : (s.process_pattern a).weights.length = (s.process_pattern a).size := by
      rw [process_pattern_weights_length, process_pattern_size]; exact hw
    have ha' : (s.process_pattern a).awards.length = (s.process_pattern a).size := by
      rw [process_pattern_awards, process_pattern_size, incrAt_length]; exact ha
    have hpos' : 0 < (s.process_pattern a).size := by
      rw [process_pattern_size]; exact hpos
    have hfold := ih (s.process_pattern a) hs' ha' hpos'
    rw [process_pattern_size] at hfold hs' ha'
    have hsum : (s.process_pattern a).awards.sum = s.awards.sum + 1 := by
      rw [process_pattern_awards]
      exact incrAt_sum s.awards _ (by omega)
    refine ⟨?_, ?_, ?_, ?_, ?_, ?_⟩
    · rw [List.foldl_cons, hfold.1, hsum]
      simp only [List.length_cons]
      omega
    · rw [List.foldl_cons]; exact hfold.2.1
    · rw [List.foldl_cons]; exact hfold.2.2.1
    · rw [List.foldl_cons, hfold.2.2.2.1]
    · rw [List.foldl_cons, hfold.2.2.2.2.1]; rfl
    · rw [List.foldl_cons, hfold.2.2.2.2.2]; rfl

theorem run_epoch_state (s : som) (e : Nat) (hw : s.weights.length = s.size)
    (hpos : 0 < s.size) :
    (s.run_epoch e).awards.sum = s.data.length ∧
    (s.run_epoch e).awards.length = s.size ∧
    (s.run_epoch e).weights.length = s.size ∧
    (s.run_epoch e).size = s.size ∧
    (s.run_epoch e).data = s.data ∧
    (s.run_epoch e).epouchs = s.epouchs := by
  have h := foldl_process_state (List.range s.data.length)
      { s with
          previous_weights := s.weights
          learn_rate := s.params.init_learn_rate * ((s.epouchs - e : Nat) : ℚ) / (s.epouchs : ℚ)
          local_radius := s.params.init_radius * ((s.epouchs - e : Nat) : ℚ) / (s.epouchs : ℚ)
          awards := List.replicate s.size 0
          capture_objects := List.replicate s.size [] }
      hw (by simp) hpos
  refine ⟨?_, ?_, ?_, ?_, ?_, ?_⟩
  · have h1 := h.1
    simp only [List.sum_replicate, List.length_range, smul_eq_mul, Nat.mul_zero,
      Nat.zero_add] at h1
    exact h1
  · exact h.2.1
  · exact h.2.2.1
  · exact h.2.2.2.1
  · exact h.2.2.2.2.1
  · exact h.2.2.2.2.2

theorem train_loop_zero (b : Bool) (ex : Nat) (s : som) :
    som.train_loop b 0 ex s = (ex, s) := rfl

theorem train_loop_succ (b : Bool) (n ex : Nat) (s : som) :
    som.train_loop b (n + 1) ex s =
      if b && decide ((s.run_epoch ex).calculate_maximal_adaptation <
          (s.run_epoch ex).params.adaptation_threshold)
      then (ex + 1, s.run_epoch ex)
      else som.train_loop b n (ex + 1) (s.run_epoch ex) := rfl

theorem train_loop_no_autostop : ∀ (rem ex : Nat) (s : som),
    (som.train_loop false rem ex s).1 = ex + rem := by
  intro rem
  induction rem with
  | zero => intro ex s; rfl
  | succ n ih =>
    intro ex s
    rw [train_loop_succ, Bool.false_and, if_neg Bool.false_ne_true, ih (ex + 1)]
    omega

theorem train_loop_autostop_spec : ∀ (rem ex : Nat) (s : som),
    (som.train_loop true rem ex s).1 ≤ ex + rem ∧
    (som.train_loop true rem ex s).2.params = s.params ∧
    ((som.train_loop true rem ex s).1 < ex + rem →
      (som.train_loop true rem ex s).2.calculate_maximal_adaptation <
        s.params.adaptation_threshold) := by
  intro rem
  induction rem with
  | zero =>
    intro ex s
    rw [train_loop_zero]
    exact ⟨Nat.le_refl _, rfl, fun h => absurd h (by omega)⟩
  | succ n ih =>
    intro ex s
    rw [train_loop_succ]
    by_cases hc : (s.run_epoch ex).calculate_maximal_adaptation <
        (s.run_epoch ex).params.adaptation_threshold
    · rw [if_pos (by simp [hc])]
      refine ⟨by omega, run_epoch_params s ex, fun _ => ?_⟩
      rw [← run_epoch_params s ex]
      exact hc
    · rw [if_neg (by simp [hc])]
      have h := ih (ex + 1) (s.run_epoch ex)
      refine ⟨by omega, ?_, fun hlt => ?_⟩
      · rw [h.2.1, run_epoch_params]
      · have h2 := h.2.2 (by omega)
        rw [run_epoch_params] at h2
        exact h2

theorem train_loop_final_awards : ∀ (n : Nat) (b : Bool) (ex : Nat) (s : som),
    s.weights.length = s.size → 0 < s.size →
    (som.train_loop b (n + 1) ex s).2.awards.sum = s.data.length := by
  intro n
  induction n with
  | zero =>
    intro b ex s hw hpos
    rw [train_loop_succ]
    have h := run_epoch_state s ex hw hpos
    by_cases hc : (b && decide ((s.run_epoch ex).calculate_maximal_adaptation <
        (s.run_epoch ex).params.adaptation_threshold)) = true
    · rw [if_pos hc]; exact h.1
    · rw [if_neg hc, train_loop_zero]; exact h.1
  | succ k ih =>
    intro b ex s hw hpos
    rw [train_loop_succ]
    have h := run_epoch_state s ex hw hpos
    by_cases hc : (b && decide ((s.run_epoch ex).calculate_maximal_adaptation <
        (s.run_epoch ex).params.adaptation_threshold)) = true
    · rw [if_pos hc]; exact h.1
    · rw [if_neg hc]
      have h2 := ih b (ex + 1) (s.run_epoch ex)
        (by rw [h.2.2.1, h.2.2.2.1]) (by rw [h.2.2.2.1]; exact hpos)
      rw [h2, h.2.2.2.2.1]

/-! ### Claim theorems: training loop, winner selection, bookkeeping -/

/-- Claim C1: for every valid engine (non-empty data set, rows > 0,
cols > 0, epoch budget E > 0), calling `train` with `autostop = false`
executes exactly E epochs and returns E. -/
theorem train_no_autostop_returns_budget (s : som)
    (hdata : s.data ≠ []) (hr : 0 < s.rows) (hc : 0 < s.cols)
    (he : 0 < s.epouchs) :
    (s.train false).1 = s.epouchs := by
  have h := train_loop_no_autostop s.epouchs 0 s
  simpa [som.train] using h

theorem train_no_autostop_returns_budget_witness :
    (sample_som.train false).1 = sample_som.epouchs :=
  train_no_autostop_returns_budget sample_som (by decide) (by decide) (by decide)
    (by decide)

/-- Claim C2: for every valid engine, `train` with `autostop = true` returns
an epoch count at most the configured budget, and whenever the returned
count is strictly below the budget, `calculate_maximal_adaptation` on the
final epoch's weight delta (current weights against the previous-weight
snapshot taken at the start of that epoch) is below the configured
`adaptation_threshold`. -/
theorem train_autostop_within_budget (s : som)
    (hdata : s.data ≠ []) (hr : 0 < s.rows) (hc : 0 < s.cols)
    (he : 0 < s.epouchs) :
    (s.train true).1 ≤ s.epouchs ∧
    ((s.train true).1 < s.epouchs →
      (s.train true).2.calculate_maximal_adaptation <
        s.params.adaptation_threshold) := by
  have h := train_loop_autostop_spec s.epouchs 0 s
  constructor
  · have h1 := h.1
    simpa [som.train] using h1
  · intro hlt
    have h2 := h.2.2 (by simpa [som.train] using hlt)
    simpa [som.train] using h2

theorem train_autostop_within_budget_witness :
    (sample_som.train true).1 ≤ sample_som.epouchs ∧
    ((sample_som.train true).1 < sample_som.epouchs →
      (sample_som.train true).2.calculate_maximal_adaptation <
        sample_som.params.adaptation_threshold) :=
  train_autostop_within_budget sample_som (by decide) (by decide) (by decide)
    (by decide)

/-- Claim C3: for every pattern and every weight state, winner selection —
`competition` as used during training, and `simulate`, which runs the same
logic — returns an index attaining the minimal (squared) Euclidean
distance, and every neuron of strictly smaller index has strictly greater
distance; so when two or more neurons attain exactly the same minimum
distance, the lowest such index is returned. -/
theorem winner_selection_lowest_index (s : som) (p : List ℚ)
    (h : s.weights ≠ []) :
    (s.simulate p).1 = competition s.weights p ∧
    (∀ i, i < s.weights.length →
      neuron_distance_sq s.weights p (competition s.weights p) ≤
        neuron_distance_sq s.weights p i) ∧
    (∀ i, i < competition s.weights p →
      neuron_distance_sq s.weights p (competition s.weights p) <
        neuron_distance_sq s.weights p i) :=
  ⟨rfl, competition_min s.weights p h, competition_least s.weights p h⟩

theorem winner_selection_lowest_index_witness :
    (sample_som.simulate [1/2, 1/2]).1 =
      competition sample_som.weights [1/2, 1/2] ∧
    (∀ i, i < sample_som.weights.length →
      neuron_distance_sq sample_som.weights [1/2, 1/2]
          (competition sample_som.weights [1/2, 1/2]) ≤
        neuron_distance_sq sample_som.weights [1/2, 1/2] i) ∧
    (∀ i, i < competition sample_som.weights [1/2, 1/2] →
      neuron_distance_sq sample_som.weights [1/2, 1/2]
          (competition sample_som.weights [1/2, 1/2]) <
        neuron_distance_sq sample_som.weights [1/2, 1/2] i) :=
  winner_selection_lowest_index sample_som [1/2, 1/2] (by decide)

/-- Claim C4: for every constructed engine and pattern, `simulate` returns a
neuron index in `[0, size)` with `size = rows * cols`. -/
theorem simulate_index_in_range (s : som) (p : List ℚ)
    (hw : s.weights.length = s.size) (hsz : s.size = s.rows * s.cols)
    (hpos : 0 < s.size) :
    (s.simulate p).1 < s.rows * s.cols := by
  have hne : s.weights ≠ [] := by
    intro hnil
    rw [hnil] at hw
    simp at hw
    omega
  have h := competition_lt_length s.weights p hne
  simp only [som.simulate]
  omega

theorem simulate_index_in_range_witness :
    (sample_som.simulate [0, 0]).1 < sample_som.rows * sample_som.cols :=
  simulate_index_in_range sample_som [0, 0] (by decide) (by decide) (by decide)

/-- Claim C5: after a completed full assignment pass over the input data set
(at the end of `train`), the sum over all neurons of the awards counters
equals the number of input patterns — each pattern contributes exactly one
award to its winner. -/
theorem train_awards_sum_eq_patterns (s : som) (b : Bool)
    (hw : s.weights.length = s.size) (hpos : 0 < s.size) (he : 0 < s.epouchs) :
    (s.train b).2.awards.sum = s.data.length := by
  obtain ⟨n, hn⟩ : ∃ n, s.epouchs = n + 1 := ⟨s.epouchs - 1, by omega⟩
  have h := train_loop_final_awards n b 0 s hw hpos
  simp only [som.train, hn]
  exact h

theorem train_awards_sum_eq_patterns_witness :
    (sample_som.train true).2.awards.sum = sample_som.data.length :=
  train_awards_sum_eq_patterns sample_som true (by decide) (by decide) (by decide)

/-- Claim C8: repeated calls to `simulate` on the same pattern return the
same neuron index, and `simulate` leaves the whole engine state — weights,
awards and captured objects included — unchanged. -/
theorem simulate_idempotent (s : som) (p : List ℚ) :
    ((s.simulate p).2.simulate p).1 = (s.simulate p).1 ∧
    (s.simulate p).2 = s ∧
    (s.simulate p).2.weights = s.weights ∧
    (s.simulate p).2.awards = s.awards ∧
    (s.simulate p).2.capture_objects = s.capture_objects :=
  ⟨rfl, rfl, rfl, rfl, rfl⟩

/-- Claim C9: constructing the engine with an empty input data set or a zero
epoch budget fails with `InvalidInputError`; the `Except` result carries no
engine state, so no lattice or weights are allocated. -/
theorem create_empty_or_zero_epochs_fails (input_data : List (List ℚ))
    (num_rows num_cols num_epochs : Nat) (type_conn : som_conn_type)
    (parameters : som_parameters)
    (h : input_data = [] ∨ num_epochs = 0) :
    som.create input_data num_rows num_cols num_epochs type_conn parameters =
      Except.error som_error.InvalidInputError := by
  simp only [som.create]
  rw [if_pos h]

theorem create_empty_or_zero_epochs_fails_witness :
    som.create [] 2 2 100 som_conn_type.SOM_GRID_FOUR som_parameters.defaults =
      Except.error som_error.InvalidInputError :=
  create_empty_or_zero_epochs_fails [] 2 2 100 som_conn_type.SOM_GRID_FOUR
    som_parameters.defaults (Or.inl rfl)

/-- Claim C10: the default-constructed `som_parameters` has `init_type`
equal to `SOM_UNIFORM_GRID`, `init_radius` equal to 1.0, `init_learn_rate`
equal to 0.1, and `adaptation_threshold` equal to 0.001. -/
theorem som_parameters_default_values :
    som_parameters.defaults.init_type = som_init_type.SOM_UNIFORM_GRID ∧
    som_parameters.defaults.init_radius = 1 ∧
    som_parameters.defaults.init_learn_rate = 1/10 ∧
    som_parameters.defaults.adaptation_threshold = 1/1000 :=
  ⟨rfl, rfl, rfl, rfl⟩

/-! ### Lemmas about the lattice adjacency -/

theorem grid4_adj_symm (r c a b : Nat) :
    grid4_coord_adj r c a b = true ↔ grid4_coord_adj a b r c = true := by
  simp only [grid4_coord_adj, natDist, Bool.or_eq_true, Bool.and_eq_true, beq_iff_eq]
  omega

theorem grid8_adj_symm (r c a b : Nat) :
    grid8_coord_adj r c a b = true ↔ grid8_coord_adj a b r c = true := by
  simp only [grid8_coord_adj, natDist, Bool.and_eq_true, decide_eq_true_eq,
    Bool.not_eq_true', Bool.and_eq_false_iff, beq_eq_false_iff_ne, ne_eq, beq_iff_eq]
  omega

theorem honeycomb_adj_symm (r c a b : Nat) :
    honeycomb_coord_adj r c a b = true ↔ honeycomb_coord_adj a b r c = true := by
  rcases Nat.mod_two_eq_zero_or_one r with hr | hr <;>
    rcases Nat.mod_two_eq_zero_or_one a with ha | ha <;>
      simp only [honeycomb_coord_adj, natDist, hr, ha] <;> simp <;> omega

theorem som_adjacent_symm (t : som_conn_type) (cols i j : Nat) :
    som_adjacent t cols i j = true ↔ som_adjacent t cols j i = true := by
  cases t
  · exact grid4_adj_symm _ _ _ _
  · exact grid8_adj_symm _ _ _ _
  · exact honeycomb_adj_symm _ _ _ _
  · exact Iff.rfl

theorem create_connections_getD (t : som_conn_type) (rows cols i : Nat)
    (hi : i < rows * cols) :
    (create_connections t rows cols).getD i [] = neighbors_of t rows cols i := by
  simp [create_connections, List.getElem?_map, List.getElem?_range, hi]

/-- Claim C6: for every lattice built with a fixed-adjacency scheme (Grid-4,
Grid-8 or Honeycomb) and any rows, cols > 0, the precomputed neighbor
relation is symmetric: B is in the neighbor list of A iff A is in the
neighbor list of B. -/
theorem neighbor_lists_symmetric (t : som_conn_type) (rows cols A B : Nat)
    (ht : t ≠ som_conn_type.SOM_FUNC_NEIGHBOR)
    (hrows : 0 < rows) (hcols : 0 < cols)
    (hA : A < rows * cols) (hB : B < rows * cols) :
    (B ∈ (create_connections t rows cols).getD A [] ↔
      A ∈ (create_connections t rows cols).getD B []) := by
  rw [create_connections_getD t rows cols A hA,
    create_connections_getD t rows cols B hB]
  simp only [neighbors_of, List.mem_filter, List.mem_range]
  constructor
  · rintro ⟨_, hadj⟩
    exact ⟨hA, (som_adjacent_symm t cols A B).mp hadj⟩
  · rintro ⟨_, hadj⟩
    exact ⟨hB, (som_adjacent_symm t cols B A).mp hadj⟩

theorem neighbor_lists_symmetric_witness :
    (1 ∈ (create_connections som_conn_type.SOM_GRID_FOUR 2 2).getD 0 [] ↔
      0 ∈ (create_connections som_conn_type.SOM_GRID_FOUR 2 2).getD 1 []) :=
  neighbor_lists_symmetric som_conn_type.SOM_GRID_FOUR 2 2 0 1 (by decide)
    (by decide) (by decide) (by decide) (by decide)

/-! ### Counting lemmas for neighbor lists -/

theorem countP_ext {α : Type} (p q : α → Bool) (l : List α)
    (h : ∀ x, p x = q x) : l.countP p = l.countP q := by
  induction l with
  | nil => rfl
  | cons a tl ih => rw [List.countP_cons, List.countP_cons, h a, ih]

theorem countP_or_disjoint {α : Type} (l : List α) (p q : α → Bool)
    (h : ∀ x, ¬(p x = true ∧ q x = true)) :
    l.countP (fun x => p x || q x) = l.countP p + l.countP q := by
  induction l with
  | nil => rfl
  | cons a tl ih =>
    cases hp : p a <;> cases hq : q a
    · simp [List.countP_cons, hp, hq, ih]
    · simp [List.countP_cons, hp, hq, ih]; omega
    · simp [List.countP_cons, hp, hq, ih]; omega
    · exact absurd ⟨hp, hq⟩ (h a)

theorem countP_and_split {α : Type} (l : List α) (p q : α → Bool) :
    l.countP p = l.countP (fun x => p x && q x) +
      l.countP (fun x => p x && !q x) := by
  induction l with
  | nil => rfl
  | cons a tl ih =>
    cases hp : p a <;> cases hq : q a <;>
      simp [List.countP_cons, hp, hq, ih] <;> omega

theorem countP_range_single (n v : Nat) :
    (List.range n).countP (fun x => x == v) = if v < n then 1 else 0 := by
  induction n with
  | zero => simp
  | succ m ih =>
    rw [List.range_succ, List.countP_append, ih]
    by_cases hmv : m = v
    · subst hmv
      simp [List.countP_cons]
    · have h1 : List.countP (fun x => x == v) [m] = 0 := by
        simp [List.countP_cons, hmv]
      rw [h1]
      by_cases hv : v < m
      · rw [if_pos hv, if_pos (by omega)]
      · rw [if_neg hv, if_neg (by omega)]

theorem countP_range_shift (n v : Nat) :
    (List.range n).countP (fun x => x + 1 == v) =
      if 0 < v ∧ v - 1 < n then 1 else 0 := by
  cases v with
  | zero =>
    rw [countP_ext (fun x => x + 1 == 0) (fun _ => false) _ (fun x => by simp)]
    simp
  | succ w =>
    rw [countP_ext (fun x => x + 1 == w + 1) (fun x => x == w) _ (fun x => by
      rw [Bool.eq_iff_iff]
      simp only [beq_iff_eq]
      omega), countP_range_single]
    by_cases h2 : w < n
    · rw [if_pos h2, if_pos (by omega)]
    · rw [if_neg h2, if_neg (by omega)]

theorem countP_range_natDist_one (n v : Nat) :
    (List.range n).countP (fun x => natDist x v == 1) =
      (if 0 < v ∧ v - 1 < n then 1 else 0) + (if v + 1 < n then 1 else 0) := by
  rw [countP_ext (fun x => natDist x v == 1)
      (fun x => (x + 1 == v) || (x == v + 1)) _ (fun x => by
    rw [Bool.eq_iff_iff]
    simp only [beq_iff_eq, Bool.or_eq_true, natDist]
    omega)]
  rw [countP_or_disjoint _ _ _ (fun x => by
    simp only [beq_iff_eq]
    omega)]
  rw [countP_range_shift, countP_range_single]

theorem countP_range_natDist_le_one (n v : Nat) :
    (List.range n).countP (fun x => decide (natDist x v ≤ 1)) =
      (if 0 < v ∧ v - 1 < n then 1 else 0) + ((if v < n then 1 else 0) +
        (if v + 1 < n then 1 else 0)) := by
  rw [countP_ext (fun x => decide (natDist x v ≤ 1))
      (fun x => (x + 1 == v) || ((x == v) || (x == v + 1))) _ (fun x => by
    rw [Bool.eq_iff_iff]
    simp only [beq_iff_eq, Bool.or_eq_true, natDist, decide_eq_true_eq]
    omega)]
  rw [countP_or_disjoint _ _ _ (fun x => by
    simp only [beq_iff_eq, Bool.or_eq_true]
    omega)]
  rw [countP_or_disjoint _ _ _ (fun x => by
    simp only [beq_iff_eq]
    omega)]
  rw [countP_range_shift, countP_range_single, countP_range_single]

theorem countP_grid_product (R C : Nat) (qr qc : Nat → Bool) :
    (List.range (R * C)).countP (fun j => qr (j / C) && qc (j % C)) =
      (List.range R).countP qr * (List.range C).countP qc := by
  induction R with
  | zero => simp
  | succ n ih =>
    rw [Nat.succ_mul, List.range_add, List.countP_append, ih, List.countP_map]
    have hcong : ∀ b ∈ List.range C,
        ((fun j => qr (j / C) && qc (j % C)) ∘ (fun x => n * C + x)) b = true ↔
          (qr n && qc b) = true := by
      intro b hb
      rw [List.mem_range] at hb
      have hCpos : 0 < C := by omega
      have h1 : (n * C + b) / C = n := by
        rw [Nat.mul_comm, Nat.mul_add_div hCpos, Nat.div_eq_of_lt hb]
        omega
      have h2 : (n * C + b) % C = b := by
        rw [Nat.mul_comm, Nat.mul_add_mod, Nat.mod_eq_of_lt hb]
      simp only [Function.comp_apply, h1, h2]
    rw [List.countP_congr hcong, List.range_succ, List.countP_append]
    cases hq : qr n
    · rw [countP_ext (fun x => false && qc x) (fun _ => false) _ (fun b => by
        simp)]
      simp [List.countP_cons, hq]
    · rw [countP_ext (fun x => true && qc x) qc _ (fun b => by
        simp)]
      simp [List.countP_cons, hq]
      ring

theorem neighbors_of_length_countP (t : som_conn_type) (R C i : Nat) :
    (neighbors_of t R C i).length =
      (List.range (R * C)).countP (fun j => som_adjacent t C i j) := by
  simp [neighbors_of, List.countP_eq_length_filter]

theorem coord_div (C r c : Nat) (hc : c < C) : (r * C + c) / C = r := by
  have hCpos : 0 < C := by omega
  rw [Nat.mul_comm, Nat.mul_add_div hCpos, Nat.div_eq_of_lt hc]
  omega

theorem coord_mod (C r c : Nat) (hc : c < C) : (r * C + c) % C = c := by
  rw [Nat.mul_comm, Nat.mul_add_mod, Nat.mod_eq_of_lt hc]

theorem grid4_count (R C r c : Nat) (hr : r < R) (hc : c < C) :
    (neighbors_of som_conn_type.SOM_GRID_FOUR R C (r * C + c)).length =
      ((if 0 < c ∧ c - 1 < C then 1 else 0) + (if c + 1 < C then 1 else 0)) +
      ((if 0 < r ∧ r - 1 < R then 1 else 0) + (if r + 1 < R then 1 else 0)) := by
  rw [neighbors_of_length_countP]
  rw [countP_ext _
      (fun j => ((j / C == r) && (natDist (j % C) c == 1)) ||
        ((natDist (j / C) r == 1) && (j % C == c))) _ (fun j => by
    simp only [som_adjacent, grid4_coord_adj, coord_div C r c hc, coord_mod C r c hc]
    rw [Bool.eq_iff_iff]
    simp only [Bool.or_eq_true, Bool.and_eq_true, beq_iff_eq]
    tauto)]
  rw [countP_or_disjoint _ _ _ (fun j => by
    simp only [Bool.and_eq_true, beq_iff_eq, natDist]
    omega)]
  have h1 := countP_grid_product R C (fun a => a == r) (fun b => natDist b c == 1)
  have h2 := countP_grid_product R C (fun a => natDist a r == 1) (fun b => b == c)
  rw [h1, h2, countP_range_single, countP_range_single, countP_range_natDist_one,
    countP_range_natDist_one, if_pos hr, if_pos hc, Nat.one_mul, Nat.mul_one]

theorem grid8_count (R C r c : Nat) (hr : r < R) (hc : c < C) :
    (neighbors_of som_conn_type.SOM_GRID_EIGHT R C (r * C + c)).length =
      (((if 0 < r ∧ r - 1 < R then 1 else 0) + ((if r < R then 1 else 0) +
          (if r + 1 < R then 1 else 0))) *
        ((if 0 < c ∧ c - 1 < C then 1 else 0) + ((if c < C then 1 else 0) +
          (if c + 1 < C then 1 else 0)))) - 1 := by
  rw [neighbors_of_length_countP]
  rw [countP_ext _
      (fun j => (decide (natDist (j / C) r ≤ 1) && decide (natDist (j % C) c ≤ 1)) &&
        !((j / C == r) && (j % C == c))) _ (fun j => by
    simp only [som_adjacent, grid8_coord_adj, coord_div C r c hc, coord_mod C r c hc])]
  have hsplit := countP_and_split (List.range (R * C))
    (fun j => decide (natDist (j / C) r ≤ 1) && decide (natDist (j % C) c ≤ 1))
    (fun j => (j / C == r) && (j % C == c))
  have hcent : (List.range (R * C)).countP
      (fun j => (decide (natDist (j / C) r ≤ 1) &&
        decide (natDist (j % C) c ≤ 1)) && ((j / C == r) && (j % C == c))) =
      (List.range (R * C)).countP (fun j => (j / C == r) && (j % C == c)) := by
    apply countP_ext
    intro j
    cases hcj : ((j / C == r) && (j % C == c))
    · simp [hcj]
    · simp only [Bool.and_eq_true, beq_iff_eq] at hcj
      simp [hcj.1, hcj.2, natDist]
  have hcent1 : (List.range (R * C)).countP
      (fun j => (j / C == r) && (j % C == c)) = 1 := by
    have h := countP_grid_product R C (fun a => a == r) (fun b => b == c)
    rw [h, countP_range_single, countP_range_single, if_pos hr, if_pos hc]
  have hfull : (List.range (R * C)).countP
      (fun j => decide (natDist (j / C) r ≤ 1) && decide (natDist (j % C) c ≤ 1)) =
      ((if 0 < r ∧ r - 1 < R then 1 else 0) + ((if r < R then 1 else 0) +
        (if r + 1 < R then 1 else 0))) *
      ((if 0 < c ∧ c - 1 < C then 1 else 0) + ((if c < C then 1 else 0) +
        (if c + 1 < C then 1 else 0))) := by
    have h := countP_grid_product R C (fun a => decide (natDist a r ≤ 1))
      (fun b => decide (natDist b c ≤ 1))
    rw [h, countP_range_natDist_le_one, countP_range_natDist_le_one]
  rw [hcent, hcent1, hfull] at hsplit
  omega

theorem countP_range_honey_even (n v : Nat) :
    (List.range n).countP (fun b => (b == v) || (b + 1 == v)) =
      (if v < n then 1 else 0) + (if 0 < v ∧ v - 1 < n then 1 else 0) := by
  rw [countP_or_disjoint _ _ _ (fun b => by
    simp only [beq_iff_eq]
    omega)]
  rw [countP_range_single, countP_range_shift]

theorem countP_range_honey_odd (n v : Nat) :
    (List.range n).countP (fun b => (b == v) || (b == v + 1)) =
      (if v < n then 1 else 0) + (if v + 1 < n then 1 else 0) := by
  rw [countP_or_disjoint _ _ _ (fun b => by
    simp only [beq_iff_eq]
    omega)]
  rw [countP_range_single, countP_range_single]

theorem honeycomb_count (R C r c : Nat) (hr : r < R) (hc : c < C) :
    (neighbors_of som_conn_type.SOM_HONEYCOMB R C (r * C + c)).length =
      ((if 0 < c ∧ c - 1 < C then 1 else 0) + (if c + 1 < C then 1 else 0)) +
      ((if 0 < r ∧ r - 1 < R then 1 else 0) + (if r + 1 < R then 1 else 0)) *
        (if r % 2 = 0
          then (if c < C then 1 else 0) + (if 0 < c ∧ c - 1 < C then 1 else 0)
          else (if c < C then 1 else 0) + (if c + 1 < C then 1 else 0)) := by
  rw [neighbors_of_length_countP]
  rcases Nat.mod_two_eq_zero_or_one r with hpar | hpar
  · rw [countP_ext _
        (fun j => ((j / C == r) && (natDist (j % C) c == 1)) ||
          ((natDist (j / C) r == 1) && ((j % C == c) || ((j % C) + 1 == c)))) _
        (fun j => by
      simp only [som_adjacent, honeycomb_coord_adj, coord_div C r c hc,
        coord_mod C r c hc, hpar]
      simp)]
    rw [countP_or_disjoint _ _ _ (fun j => by
      simp only [Bool.and_eq_true, beq_iff_eq, natDist]
      omega)]
    have h1 := countP_grid_product R C (fun a => a == r)
      (fun b => natDist b c == 1)
    have h2 := countP_grid_product R C (fun a => natDist a r == 1)
      (fun b => (b == c) || (b + 1 == c))
    rw [h1, h2, countP_range_single, if_pos hr, Nat.one_mul,
      countP_range_natDist_one, countP_range_natDist_one, countP_range_honey_even,
      if_pos hpar]
  · rw [countP_ext _
        (fun j => ((j / C == r) && (natDist (j % C) c == 1)) ||
          ((natDist (j / C) r == 1) && ((j % C == c) || (j % C == c + 1)))) _
        (fun j => by
      simp only [som_adjacent, honeycomb_coord_adj, coord_div C r c hc,
        coord_mod C r c hc, hpar]
      simp)]
    rw [countP_or_disjoint _ _ _ (fun j => by
      simp only [Bool.and_eq_true, beq_iff_eq, natDist]
      omega)]
    have h1 := countP_grid_product R C (fun a => a == r)
      (fun b => natDist b c == 1)
    have h2 := countP_grid_product R C (fun a => natDist a r == 1)
      (fun b => (b == c) || (b == c + 1))
    have hne : ¬(r % 2 = 0) := by omega
    rw [h1, h2, countP_range_single, if_pos hr, Nat.one_mul,
      countP_range_natDist_one, countP_range_natDist_one, countP_range_honey_odd,
      if_neg hne]

/-- Claim C7, as stated, fails at rows = cols = 1 (allowed by its
"R, C > 0"): on the 1×1 Grid-4 lattice neuron 0 is a corner neuron, yet its
neighbor list is empty — 0 neighbors instead of the claimed 2. -/
theorem grid4_corner_two_counterexample :
    (0 : Nat) < 1 ∧ is_corner 1 1 0 0 = true ∧
    ((create_connections som_conn_type.SOM_GRID_FOUR 1 1).getD 0 []).length ≠ 2 :=
  ⟨by decide, by decide, by decide⟩

/-- Claim C7 (amended): on every R × C lattice with R, C ≥ 2, writing each
neuron as `r * C + c` with `r < R`, `c < C`: under Grid-4 interior neurons
have exactly 4 neighbors, corners exactly 2, and edge (non-corner) neurons
exactly 3; under Grid-8 and Honeycomb interior neurons have exactly 8 and 6
neighbors respectively, and boundary (non-interior) neurons strictly
fewer. -/
theorem neighbor_counts (rows cols r c : Nat)
    (hrows : 2 ≤ rows) (hcols : 2 ≤ cols) (hr : r < rows) (hc : c < cols) :
    (is_interior rows cols r c = true →
      ((create_connections som_conn_type.SOM_GRID_FOUR rows cols).getD
        (r * cols + c) []).length = 4 ∧
      ((create_connections som_conn_type.SOM_GRID_EIGHT rows cols).getD
        (r * cols + c) []).length = 8 ∧
      ((create_connections som_conn_type.SOM_HONEYCOMB rows cols).getD
        (r * cols + c) []).length = 6) ∧
    (is_corner rows cols r c = true →
      ((create_connections som_conn_type.SOM_GRID_FOUR rows cols).getD
        (r * cols + c) []).length = 2) ∧
    (is_edge rows cols r c = true →
      ((create_connections som_conn_type.SOM_GRID_FOUR rows cols).getD
        (r * cols + c) []).length = 3) ∧
    (is_interior rows cols r c = false →
      ((create_connections som_conn_type.SOM_GRID_EIGHT rows cols).getD
        (r * cols + c) []).length < 8 ∧
      ((create_connections som_conn_type.SOM_HONEYCOMB rows cols).getD
        (r * cols + c) []).length < 6) := by
  have hi : r * cols + c < rows * cols := by
    have h1 : (r + 1) * cols ≤ rows * cols := Nat.mul_le_mul_right _ (by omega)
    have h2 : r * cols + c < (r + 1) * cols := by
      rw [Nat.succ_mul]
      omega
    omega
  rw [create_connections_getD som_conn_type.SOM_GRID_FOUR rows cols _ hi,
    create_connections_getD som_conn_type.SOM_GRID_EIGHT rows cols _ hi,
    create_connections_getD som_conn_type.SOM_HONEYCOMB rows cols _ hi,
    grid4_count rows cols r c hr hc, grid8_count rows cols r c hr hc,
    honeycomb_count rows cols r c hr hc]
  refine ⟨?_, ?_, ?_, ?_⟩
  · intro h
    simp only [is_interior, Bool.and_eq_true, decide_eq_true_eq] at h
    obtain ⟨⟨⟨h1, h2⟩, h3⟩, h4⟩ := h
    refine ⟨?_, ?_, ?_⟩ <;> split_ifs <;> omega
  · intro h
    simp only [is_corner, Bool.and_eq_true, Bool.or_eq_true, beq_iff_eq] at h
    split_ifs <;> omega
  · intro h
    simp only [is_edge, is_corner, Bool.and_eq_true, Bool.or_eq_true,
      Bool.not_eq_true', Bool.and_eq_false_iff, Bool.or_eq_false_iff,
      beq_iff_eq, beq_eq_false_iff_ne, ne_eq] at h
    split_ifs <;> omega
  · intro h
    simp only [is_interior, Bool.and_eq_false_iff, decide_eq_false_iff_not,
      Nat.not_lt] at h
    refine ⟨?_, ?_⟩ <;> split_ifs <;> omega

theorem neighbor_counts_witness :
    (is_interior 3 3 1 1 = true →
      ((create_connections som_conn_type.SOM_GRID_FOUR 3 3).getD
        (1 * 3 + 1) []).length = 4 ∧
      ((create_connections som_conn_type.SOM_GRID_EIGHT 3 3).getD
        (1 * 3 + 1) []).length = 8 ∧
      ((create_connections som_conn_type.SOM_HONEYCOMB 3 3).getD
        (1 * 3 + 1) []).length = 6) ∧
    (is_corner 3 3 1 1 = true →
      ((create_connections som_conn_type.SOM_GRID_FOUR 3 3).getD
        (1 * 3 + 1) []).length = 2) ∧
    (is_edge 3 3 1 1 = true →
      ((create_connections som_conn_type.SOM_GRID_FOUR 3 3).getD
        (1 * 3 + 1) []).length = 3) ∧
    (is_interior 3 3 1 1 = false →
      ((create_connections som_conn_type.SOM_GRID_EIGHT 3 3).getD
        (1 * 3 + 1) []).length < 8 ∧
      ((create_connections som_conn_type.SOM_HONEYCOMB 3 3).getD
        (1 * 3 + 1) []).length < 6) :=
  neighbor_counts 3 3 1 1 (by decide) (by decide) (by decide) (by decide)
